import Mathlib

set_option autoImplicit false

/-!
Shallow embedding of the asynchronous msgpack-RPC client in
`src/pynvim_pp/rpc.py`.

Modelling conventions:
* msgpack values decoded from the wire are the inductive `Value`; Python
  truthiness is `Value.truthy`; Python `==` against an integer (which also
  matches booleans, since `bool` is an `int` subclass) is `valueEqInt`.
* `asyncio.Future` objects are `FutState`: created pending, settled at most
  once with either a result or an exception; calling `set_result` or
  `set_exception` on an already settled future raises `InvalidStateError`
  (`PyErr.invalidStateError`).
* The mutable state of `_RPClient` together with the queues created in
  `client` is `ClientState`: the `count()` id source `uids`, the outbound
  queue `tx_q` (`txQ`, a FIFO list of frames, each a msgpack array `Value`),
  the pending-response dict `rx_q` (`rxQ`, an insertion-ordered association
  list with unique keys, as a Python `dict`), the handler dict `methods`,
  and the `_chan` field.
* Exceptions that escape a modelled code path are the `Except` error
  component, with `PyErr` naming the Python exception class; code paths that
  merely log use `LogWarn` values in the returned data.
* The `rx` callback of `client` processing one decoded inbound frame is
  `rxStep`; handler invocations are spawned via `create_task`, recorded as
  `Spawn` values; the body of the spawned `wrapped` closure made by
  `_RPClient.register` is `wrapped`.
-/

/-- A decoded msgpack value, as produced by `Unpacker` (with `ext_hook`
already applied, so extension values appear as `(code, data)` pairs, which is
also how `Ext.__eq__` compares them). -/
inductive Value where
  | nil
  | bool (b : Bool)
  | int (n : Int)
  | str (s : String)
  | arr (items : List Value)
  | map (entries : List (Value × Value))
  | ext (code : Int) (data : List Nat)

/-- Python truthiness of a decoded msgpack value (`if err:` etc.). -/
def Value.truthy : Value → Bool
  | .nil => false
  | .bool b => b
  | .int n => n != 0
  | .str s => !(s == "")
  | .arr items => !items.isEmpty
  | .map entries => !entries.isEmpty
  | .ext _ _ => true

/-- Python `v == n` for an integer literal `n`: `True == 1` and `False == 0`
hold because `bool` subclasses `int`; no other decoded value equals an int. -/
def valueEqInt (v : Value) (n : Int) : Bool :=
  match v with
  | .int m => m == n
  | .bool b => (if b then (1 : Int) else 0) == n
  | _ => false

/-- Python `v == k` for an int dict key `k`, used by `rx_q.get(msg_id)`. -/
def pyKeyEq (v : Value) (k : Int) : Bool :=
  valueEqInt v k

/-- Whether a value is a Python `Mapping` (`isinstance(meta, Mapping)`). -/
def Value.isMapB : Value → Bool
  | .map _ => true
  | _ => false

/-- The lifecycle state of one `asyncio.Future` in `rx_q`. -/
inductive FutState where
  | pending
  | result (v : Value)
  | exception (e : Value)

/-- How `client.rx` settles a found future:
`if err: fut.set_exception(NvimError(err)) else: fut.set_result(res)`. -/
def settleVal (err res : Value) : FutState :=
  if err.truthy then .exception err else .result res

/-- Python exception classes raised by the modelled code paths. -/
inductive PyErr where
  | assertionError
  | typeError
  | valueError
  | keyError
  | invalidStateError
  | runtimeError (code : Int) (data : List Nat)
  deriving DecidableEq

/-- One of the `Ext` subclasses (`Buffer`, `Window`, `Tabpage`) with the
class-level type code set by `Ext.init_code`. -/
structure ExtCls where
  kind : String
  code : Int
  deriving DecidableEq

/-- An instance of a registered `Ext` subclass wrapping a decoded payload,
as constructed by `_Hooker.ext_hook` via `cls(data=ExtData(data))`. -/
structure ExtValue where
  cls : ExtCls
  data : List Nat
  deriving DecidableEq

/-- The `_Hooker._mapping` dict `{cls.code: cls}`. -/
abbrev Hooker := List (Int × ExtCls)

/-- Python dict assignment `m[k] = c`: overwrite in place or append. -/
def hookerSet (m : Hooker) (k : Int) (c : ExtCls) : Hooker :=
  if (List.any m fun kv => kv.1 == k) then
    List.map (fun kv => if kv.1 == k then (k, c) else kv) m
  else
    m ++ [(k, c)]

/-- `_Hooker.init`: `self._mapping = {cls.code: cls for cls in exts}`. -/
def hookerInit (exts : List ExtCls) : Hooker :=
  exts.foldl (fun m c => hookerSet m c.code c) []

/-- Python `self._mapping.get(code)`. -/
def hookerGet (m : Hooker) (code : Int) : Option ExtCls :=
  (List.find? (fun kv => kv.1 == code) m).map (·.2)

/-- `_Hooker.ext_hook`: a registered code constructs an instance of the
registered class wrapping the payload (class objects are truthy, so the
walrus `if cls := ...` test is exactly presence in the dict); an unregistered
code raises `RuntimeError((code, data))`. -/
def ext_hook (m : Hooker) (code : Int) (data : List Nat) : Except PyErr ExtValue :=
  match hookerGet m code with
  | some cls => .ok ⟨cls, data⟩
  | none => .error (.runtimeError code data)

/-- An outbound Python object handed to the `Packer` default hook `_pack`:
either an instance of `Ext` or some other custom object (summarised by a
description, which `_pack` never inspects). -/
inductive PackVal where
  | extv (e : ExtValue)
  | other (desc : String)

/-- The `Packer(default=_pack)` hook: an `Ext` instance encodes to
`ExtType(val.code, val.data)`; anything else raises `TypeError()`. -/
def _pack (val : PackVal) : Except PyErr (Int × List Nat) :=
  match val with
  | .extv e => .ok (e.cls.code, e.data)
  | .other _ => .error .typeError

/-- A registered RPC handler (`RPCallable`): its `method` name and the
wrapped coroutine `f`. A run that raises is modelled by `.error d` where `d`
is the string description `str((e, format_exc()))` the except-branch of
`wrapped` computes from the exception. -/
structure RPCallable where
  method : String
  run : List Value → Except String Value

/-- The combined mutable state of `_RPClient` and the `client` queues. -/
structure ClientState where
  uids : Int
  txQ : List Value
  rxQ : List (Int × FutState)
  methods : List (String × RPCallable)
  _chan : Option Value

/-- The state right after `client` builds `tx_q = Queue()`, `rx_q = {}`,
`methods = {}` and `_RPClient.__init__` runs (`count()` starts at 0). -/
def initState : ClientState :=
  { uids := 0, txQ := [], rxQ := [], methods := [], _chan := none }

/-- Python `rx_q.get(msg_id)` together with the matching key: first entry
whose int key compares `==` to the decoded `msg_id` value. -/
def rxqFind (q : List (Int × FutState)) (mid : Value) : Option (Int × FutState) :=
  List.find? (fun kv => pyKeyEq mid kv.1) q

/-- Observation: the future registered for request id `i`. -/
def rxqLookup (q : List (Int × FutState)) (i : Int) : Option FutState :=
  (rxqFind q (.int i)).map (·.2)

/-- Replace the future stored at key `k` (dict update keeps position). -/
def rxqSet (q : List (Int × FutState)) (k : Int) (v : FutState) : List (Int × FutState) :=
  List.map (fun kv => if kv.1 = k then (k, v) else kv) q

/-- Python dict assignment `rx_q[uid] = fut`. -/
def rxqInsert (q : List (Int × FutState)) (k : Int) (v : FutState) : List (Int × FutState) :=
  if (List.any q fun kv => kv.1 == k) then rxqSet q k v else q ++ [(k, v)]

/-- Update only the pending-response table of a state. -/
def setFut (st : ClientState) (k : Int) (v : FutState) : ClientState :=
  { st with rxQ := rxqSet st.rxQ k v }

/-- Invariant of the id source: every key in `rx_q` was allocated by an
earlier `next(self._uids)`, hence is below the counter. -/
def keyInv (st : ClientState) : Prop :=
  ∀ k ∈ st.rxQ.map Prod.fst, k < st.uids

/-- Python `self._methods.get(name)` for a string name. -/
def methodsGet (ms : List (String × RPCallable)) (m : String) : Option RPCallable :=
  (List.find? (fun kv => kv.1 == m) ms).map (·.2)

/-- Python dict assignment `self._methods[name] = f`. -/
def methodsInsert (ms : List (String × RPCallable)) (m : String) (f : RPCallable) :
    List (String × RPCallable) :=
  if (List.any ms fun kv => kv.1 == m) then
    List.map (fun kv => if kv.1 == m then (m, f) else kv) ms
  else
    ms ++ [(m, f)]

/-- Python `methods.get(method)` where `method` is a decoded wire value: an
unhashable value (list or dict) raises `TypeError`; a hashable non-string
never equals a string key; a string looks up normally. -/
def methodsGetV (ms : List (String × RPCallable)) (mv : Value) :
    Except PyErr (Option RPCallable) :=
  match mv with
  | .arr _ => .error .typeError
  | .map _ => .error .typeError
  | .str s => .ok (methodsGet ms s)
  | _ => .ok none

/-- `_RPClient.notify`: enqueue `(2, method, params)` on `tx_q`. -/
def notify (st : ClientState) (method : String) (params : List Value) : ClientState :=
  { st with txQ := st.txQ ++ [.arr [.int 2, .str method, .arr params]] }

/-- `_RPClient.request`: `uid = next(self._uids)`, create a pending future,
`self._rx[uid] = fut`, enqueue `(0, uid, method, params)`; returns the
allocated uid with the new state (the caller then awaits the future). -/
def request (st : ClientState) (method : String) (params : List Value) :
    Int × ClientState :=
  (st.uids,
    { st with
        uids := st.uids + 1
        rxQ := rxqInsert st.rxQ st.uids .pending
        txQ := st.txQ ++ [.arr [.int 0, .int st.uids, .str method, .arr params]] })

/-- `_RPClient.register`: `assert f.method not in self._methods` (an existing
entry raises `AssertionError` before any mutation), then store the handler. -/
def register (st : ClientState) (f : RPCallable) : Except PyErr ClientState :=
  if (methodsGet st.methods f.method).isSome then .error .assertionError
  else .ok { st with methods := methodsInsert st.methods f.method f }

/-- Python argument unpacking `f(*params)` on a decoded value: arrays unpack
elementwise, strings unpack into 1-character strings, dicts unpack their
keys, anything else raises `TypeError` (caught by the try of `wrapped`, so
it is modelled as a raising run whose description is the error string). -/
def starUnpack : Value → Except String (List Value)
  | .arr l => .ok l
  | .str s => .ok (s.data.map fun c => .str (String.mk [c]))
  | .map kvs => .ok (kvs.map (·.1))
  | _ => .error "TypeError"

/-- The body of the `wrapped` closure built by `_RPClient.register`, run as
its own task: for a notification (`msg_id is None`) the handler result (or
its exception, which only kills that task) is dropped; for a request the
handler is run under try/except and exactly one response frame is enqueued:
`(1, msg_id, None, resp)` on success, `(1, msg_id, str((e, format_exc())),
None)` when the handler raises. -/
def wrapped (st : ClientState) (f : RPCallable) (msgId : Option Value) (params : Value) :
    ClientState :=
  match msgId with
  | none => st
  | some mid =>
    match starUnpack params >>= f.run with
    | .ok resp => { st with txQ := st.txQ ++ [.arr [.int 1, mid, .nil, resp]] }
    | .error e => { st with txQ := st.txQ ++ [.arr [.int 1, mid, .str e, .nil]] }

/-- A `log.warn` call made by `client.rx`. -/
inductive LogWarn where
  | noListener (method : Value)
  | unexpectedResponse (err res : Value)

/-- A handler invocation spawned with `create_task(cb(msg_id, params))`. -/
structure Spawn where
  cb : RPCallable
  msgId : Option Value
  params : Value

/-- Outcome of `client.rx` consuming one decoded frame without raising. -/
structure RxOut where
  state : ClientState
  spawns : List Spawn
  warns : List LogWarn

/-- Whether a decoded value may be used as a dict key (`rx_q.get(msg_id)`
raises `TypeError` on an unhashable list or dict). -/
def hashableId : Value → Bool
  | .arr _ => false
  | .map _ => false
  | _ => true

/-- One iteration of the `async for frame in rx` body of `client.rx`:
non-sequences fail `assert isinstance(frame, Sequence)`; a 3-element frame
must be a notification (`assert ty == 2`) and spawns or warns; a 4-element
frame is a response (settle the future found for `msg_id`, warn if none) or
a request (spawn the handler task, warn if none), any other tag hitting
`assert False`; frames of other lengths fall through both branches and are
silently ignored. -/
def rxStep (st : ClientState) (frame : Value) : Except PyErr RxOut :=
  match frame with
  | .arr l =>
    match l with
    | [ty, method, params] =>
      if valueEqInt ty 2 then
        match methodsGetV st.methods method with
        | .error e => .error e
        | .ok (some f) => .ok ⟨st, [⟨f, none, params⟩], []⟩
        | .ok none => .ok ⟨st, [], [.noListener method]⟩
      else .error .assertionError
    | [ty, a, b, c] =>
      if valueEqInt ty 1 then
        if hashableId a then
          match rxqFind st.rxQ a with
          | some (k, .pending) => .ok ⟨setFut st k (settleVal b c), [], []⟩
          | some (_, .result _) => .error .invalidStateError
          | some (_, .exception _) => .error .invalidStateError
          | none => .ok ⟨st, [], [.unexpectedResponse b c]⟩
        else .error .typeError
      else if valueEqInt ty 0 then
        match methodsGetV st.methods b with
        | .error e => .error e
        | .ok (some f) => .ok ⟨st, [⟨f, some a, c⟩], []⟩
        | .ok none => .ok ⟨st, [], [.noListener b]⟩
      else .error .assertionError
    | _ => .ok ⟨st, [], []⟩
  | _ => .error .assertionError

/-- The whole receive loop `client.rx` over the finite stream of decoded
frames up to connection closure: when `reader.read` returns empty the
`async for` simply ends and `rx` returns — nothing further happens to the
state (in particular no pending future is settled at teardown). -/
def rxRun (st : ClientState) (frames : List Value) : Except PyErr ClientState :=
  match frames with
  | [] => .ok st
  | f :: rest =>
    match rxStep st f with
    | .ok out => rxRun out.state rest
    | .error e => .error e

/-- A wire Response frame `[1, i, err, res]` for request id `i`. -/
def respFrame (i : Int) (err res : Value) : Value :=
  .arr [.int 1, .int i, err, res]

/-- Whether a frame is a Response addressed to request id `i`. -/
def isRespFor (i : Int) (f : Value) : Bool :=
  match f with
  | .arr [ty, a, _, _] => valueEqInt ty 1 && pyKeyEq a i
  | _ => false

/-- The `chan` property of `_RPClient`: `assert self._chan` (truthiness, so
both an unset channel and a stored falsy value such as `0` raise
`AssertionError`), then return the stored value. -/
def chan (st : ClientState) : Except PyErr Value :=
  match st._chan with
  | some v => if v.truthy then .ok v else .error .assertionError
  | none => .error .assertionError

/-- Python `d.get(key)` on a decoded map for a string key. -/
def mapGet (kvs : List (Value × Value)) (k : String) : Option Value :=
  (List.find? (fun kv => match kv.1 with | .str s => s == k | _ => false) kvs).map (·.2)

/-- The 2-element unpacking `chan, meta = result`: sequences of exactly two
items unpack positionally (strings into characters, dicts into their keys),
other lengths raise `ValueError`, non-iterables raise `TypeError`. -/
def unpack2 (v : Value) : Except PyErr (Value × Value) :=
  match v with
  | .arr [a, b] => .ok (a, b)
  | .arr _ => .error .valueError
  | .map [k1, k2] => .ok (k1.1, k2.1)
  | .map _ => .error .valueError
  | .str s =>
    match s.data with
    | [c1, c2] => .ok (.str (String.mk [c1]), .str (String.mk [c2]))
    | _ => .error .valueError
  | _ => .error .typeError

/-- Python subscription `v[key]` for a string key: maps index by key
(`KeyError` if absent); lists, strings and everything else raise
`TypeError` for a string index. -/
def extIndex (v : Value) (key : String) : Except PyErr Value :=
  match v with
  | .map kvs =>
    match mapGet kvs key with
    | some w => .ok w
    | none => .error .keyError
  | _ => .error .typeError

/-- `Ext.init_code`: `assert isinstance(code, int)` (booleans pass, being an
`int` subclass, and register as their numeric value), storing the code. -/
def init_code (v : Value) : Except PyErr Int :=
  match v with
  | .int n => .ok n
  | .bool b => .ok (if b then 1 else 0)
  | _ => .error .assertionError

/-- The `types[name]["id"]` extraction plus `init_code` assertion performed
for each of `Buffer`, `Window`, `Tabpage` during handshake. -/
def typeCode (types : List (Value × Value)) (name : String) : Except PyErr Int :=
  match extIndex (.map types) name with
  | .error e => .error e
  | .ok entry =>
    match extIndex entry "id" with
    | .error e => .error e
    | .ok idv => init_code idv

/-- Identity announced during handshake: `PARENT.name` and the interpreter
`version_info` fields used for the `major`/`minor`/`patch` map. -/
structure ClientInfo where
  name : String
  major : Int
  minor : Int
  micro : Int

/-- The params tuple of the `nvim_set_client_info` notification:
`(name, {"major": ..., "minor": ..., "patch": ...}, "remote", (), {})`. -/
def clientInfoParams (ci : ClientInfo) : List Value :=
  [ .str ci.name,
    .map [(.str "major", .int ci.major), (.str "minor", .int ci.minor),
          (.str "patch", .int ci.micro)],
    .str "remote", .arr [], .map [] ]

/-- The outbound half of the handshake in `client`: one
`nvim_set_client_info` notification followed by one `nvim_get_api_info`
request with no params. -/
def handshakeSend (st : ClientState) (ci : ClientInfo) : Int × ClientState :=
  request (notify st "nvim_set_client_info" (clientInfoParams ci)) "nvim_get_api_info" []

/-- The rest of `client` once the `nvim_get_api_info` response result
arrives: unpack `chan, meta`, assert `meta`, `meta.get("types")` and
`meta.get("error_types")` are mappings, extract and assert the three type
codes, set `rpc._chan = chan`, and build the hooker mapping via
`hooker.init(Buffer, Window, Tabpage)`. Any raise aborts `client` before it
yields, so the client never becomes ready. -/
def handshakeComplete (st : ClientState) (result : Value) :
    Except PyErr (ClientState × Hooker) :=
  match unpack2 result with
  | .error e => .error e
  | .ok (chanV, metaV) =>
    match metaV with
    | .map kvs =>
      match mapGet kvs "types" with
      | some (.map types) =>
        match mapGet kvs "error_types" with
        | some (.map _) =>
          match typeCode types "Buffer" with
          | .error e => .error e
          | .ok bufCode =>
            match typeCode types "Window" with
            | .error e => .error e
            | .ok winCode =>
              match typeCode types "Tabpage" with
              | .error e => .error e
              | .ok tabCode =>
                .ok ({ st with _chan := some chanV },
                  hookerInit
                    [⟨"Buffer", bufCode⟩, ⟨"Window", winCode⟩, ⟨"Tabpage", tabCode⟩])
        | _ => .error .assertionError
      | _ => .error .assertionError
    | _ => .error .assertionError

/-- Malformed handshake metadata in the sense of the spec: the `types` or
`error_types` entry is missing or not a mapping. -/
def badMeta (kvs : List (Value × Value)) : Bool :=
  !(match mapGet kvs "types" with | some (.map _) => true | _ => false) ||
  !(match mapGet kvs "error_types" with | some (.map _) => true | _ => false)

/-! ### Pending-table lemmas -/

theorem rxqLookup_cons (a : Int × FutState) (t : List (Int × FutState)) (i : Int) :
    rxqLookup (a :: t) i = if a.1 = i then some a.2 else rxqLookup t i := by
  by_cases h : a.1 = i
  · rw [if_pos h]
    unfold rxqLookup rxqFind
    rw [List.find?_cons_of_pos _ (by simp [pyKeyEq, valueEqInt, h])]
    rfl
  · rw [if_neg h]
    unfold rxqLookup rxqFind
    rw [List.find?_cons_of_neg _ (by simp [pyKeyEq, valueEqInt]; exact fun e => h e.symm)]

theorem rxqLookup_set_self (q : List (Int × FutState)) (k : Int) (v : FutState)
    (h : (rxqLookup q k).isSome) :
    rxqLookup (rxqSet q k v) k = some v := by
  induction q with
  | nil => simp [rxqLookup, rxqFind] at h
  | cons a t ih =>
    rw [rxqLookup_cons] at h
    by_cases hk : a.1 = k
    · rw [rxqSet, List.map_cons, if_pos hk, rxqLookup_cons, if_pos rfl]
    · rw [if_neg hk] at h
      rw [rxqSet, List.map_cons, if_neg hk, rxqLookup_cons, if_neg hk]
      exact ih h

theorem rxqLookup_set_other (q : List (Int × FutState)) (k : Int) (v : FutState) (j : Int)
    (hj : j ≠ k) :
    rxqLookup (rxqSet q k v) j = rxqLookup q j := by
  induction q with
  | nil => rfl
  | cons a t ih =>
    by_cases hk : a.1 = k
    · rw [rxqSet, List.map_cons, if_pos hk, rxqLookup_cons, rxqLookup_cons,
        if_neg (fun e => hj e.symm), if_neg (fun e => hj (hk.symm.trans e).symm)]
      exact ih
    · rw [rxqSet, List.map_cons, if_neg hk, rxqLookup_cons, rxqLookup_cons]
      by_cases ha : a.1 = j
      · rw [if_pos ha, if_pos ha]
      · rw [if_neg ha, if_neg ha]
        exact ih

theorem rxqLookup_append_self (q : List (Int × FutState)) (k : Int) (v : FutState)
    (h : rxqLookup q k = none) :
    rxqLookup (q ++ [(k, v)]) k = some v := by
  induction q with
  | nil => rw [List.nil_append, rxqLookup_cons, if_pos rfl]
  | cons a t ih =>
    rw [rxqLookup_cons] at h
    by_cases hk : a.1 = k
    · rw [if_pos hk] at h; exact absurd h (by simp)
    · rw [if_neg hk] at h
      rw [List.cons_append, rxqLookup_cons, if_neg hk]
      exact ih h

theorem rxqLookup_append_other (q : List (Int × FutState)) (k : Int) (v : FutState) (j : Int)
    (hj : j ≠ k) :
    rxqLookup (q ++ [(k, v)]) j = rxqLookup q j := by
  induction q with
  | nil =>
    rw [List.nil_append, rxqLookup_cons, if_neg (fun e => hj e.symm)]
  | cons a t ih =>
    rw [List.cons_append, rxqLookup_cons, rxqLookup_cons]
    by_cases ha : a.1 = j
    · rw [if_pos ha, if_pos ha]
    · rw [if_neg ha, if_neg ha]
      exact ih

theorem rxqLookup_none_of_lt (q : List (Int × FutState)) (u : Int)
    (h : ∀ k ∈ q.map Prod.fst, k < u) :
    rxqLookup q u = none := by
  induction q with
  | nil => rfl
  | cons a t ih =>
    rw [rxqLookup_cons, if_neg (ne_of_lt (h a.1 (by simp)))]
    exact ih fun k hk => h k (by simp [hk])

theorem rxq_any_eq_false_of_lt (q : List (Int × FutState)) (u : Int)
    (h : ∀ k ∈ q.map Prod.fst, k < u) :
    (List.any q fun kv => kv.1 == u) = false := by
  rw [List.any_eq_false]
  intro kv hkv
  simp only [beq_iff_eq]
  exact ne_of_lt (h kv.1 (List.mem_map_of_mem Prod.fst hkv))

/-! ### Handler-table lemmas -/

theorem methodsGet_cons (a : String × RPCallable) (t : List (String × RPCallable)) (m : String) :
    methodsGet (a :: t) m = if a.1 = m then some a.2 else methodsGet t m := by
  by_cases h : a.1 = m
  · rw [if_pos h]
    unfold methodsGet
    rw [List.find?_cons_of_pos _ (by simp [h])]
    rfl
  · rw [if_neg h]
    unfold methodsGet
    rw [List.find?_cons_of_neg _ (by simp [h])]

theorem methods_any_eq_false (ms : List (String × RPCallable)) (m : String)
    (h : methodsGet ms m = none) :
    (List.any ms fun kv => kv.1 == m) = false := by
  induction ms with
  | nil => rfl
  | cons a t ih =>
    rw [methodsGet_cons] at h
    by_cases hk : a.1 = m
    · rw [if_pos hk] at h; exact absurd h (by simp)
    · rw [if_neg hk] at h
      rw [List.any_cons, ih h, Bool.or_false]
      simp [hk]

theorem methodsGet_append_self (ms : List (String × RPCallable)) (m : String) (f : RPCallable)
    (h : methodsGet ms m = none) :
    methodsGet (ms ++ [(m, f)]) m = some f := by
  induction ms with
  | nil => rw [List.nil_append, methodsGet_cons, if_pos rfl]
  | cons a t ih =>
    rw [methodsGet_cons] at h
    by_cases hk : a.1 = m
    · rw [if_pos hk] at h; exact absurd h (by simp)
    · rw [if_neg hk] at h
      rw [List.cons_append, methodsGet_cons, if_neg hk]
      exact ih h

/-! ### Receive-step lemmas -/

theorem rxStep_resp_cases (st : ClientState) (i : Int) (err res : Value) :
    rxStep st (respFrame i err res) =
      match rxqFind st.rxQ (.int i) with
      | some (k, .pending) => .ok ⟨setFut st k (settleVal err res), [], []⟩
      | some (_, .result _) => .error .invalidStateError
      | some (_, .exception _) => .error .invalidStateError
      | none => .ok ⟨st, [], [.unexpectedResponse err res]⟩ := by
  simp [rxStep, respFrame, valueEqInt, hashableId]

theorem rxStep_resp_pending (st : ClientState) (i : Int) (err res : Value)
    (h : rxqLookup st.rxQ i = some .pending) :
    rxStep st (respFrame i err res) = .ok ⟨setFut st i (settleVal err res), [], []⟩ := by
  rcases hf : rxqFind st.rxQ (.int i) with _ | ⟨k, fut⟩
  · rw [rxqLookup, hf] at h; exact absurd h (by simp)
  · have hk : pyKeyEq (.int i) k = true := by
      have := List.find?_some hf
      exact this
    have hik : i = k := by
      simpa [pyKeyEq, valueEqInt] using hk
    rw [rxqLookup, hf] at h
    simp only [Option.map_some'] at h
    subst hik
    cases fut with
    | pending => rw [rxStep_resp_cases, hf]
    | result v => exact absurd h (by simp)
    | exception e => exact absurd h (by simp)

theorem rxStep_fields (st : ClientState) (fr : Value) (out : RxOut)
    (h : rxStep st fr = .ok out) :
    out.state.uids = st.uids ∧ out.state.txQ = st.txQ ∧
      out.state.methods = st.methods ∧ out.state._chan = st._chan := by
  rcases fr with _ | b | n | s | l | m | ⟨c, d⟩
  case nil => exact Except.noConfusion h
  case bool => exact Except.noConfusion h
  case int => exact Except.noConfusion h
  case str => exact Except.noConfusion h
  case map => exact Except.noConfusion h
  case ext => exact Except.noConfusion h
  case arr =>
    unfold rxStep at h
    rcases l with _ | ⟨x1, _ | ⟨x2, _ | ⟨x3, _ | ⟨x4, _ | ⟨x5, rest⟩⟩⟩⟩⟩
    · injection h with h2; subst h2; exact ⟨rfl, rfl, rfl, rfl⟩
    · injection h with h2; subst h2; exact ⟨rfl, rfl, rfl, rfl⟩
    · injection h with h2; subst h2; exact ⟨rfl, rfl, rfl, rfl⟩
    · repeat' split at h
      all_goals first
        | exact Except.noConfusion h
        | (injection h with h2; subst h2; exact ⟨rfl, rfl, rfl, rfl⟩)
    · repeat' split at h
      all_goals first
        | exact Except.noConfusion h
        | (injection h with h2; subst h2; exact ⟨rfl, rfl, rfl, rfl⟩)
    · injection h with h2; subst h2; exact ⟨rfl, rfl, rfl, rfl⟩

theorem rxStep_rxq_lookup (st : ClientState) (fr : Value) (out : RxOut) (i : Int)
    (h : rxStep st fr = .ok out) (hf : isRespFor i fr = false) :
    rxqLookup out.state.rxQ i = rxqLookup st.rxQ i := by
  rcases fr with _ | b | n | s | l | m | ⟨c, d⟩
  case nil => exact Except.noConfusion h
  case bool => exact Except.noConfusion h
  case int => exact Except.noConfusion h
  case str => exact Except.noConfusion h
  case map => exact Except.noConfusion h
  case ext => exact Except.noConfusion h
  case arr =>
    rcases l with _ | ⟨x1, _ | ⟨x2, _ | ⟨x3, _ | ⟨x4, _ | ⟨x5, rest⟩⟩⟩⟩⟩ <;>
      simp only [rxStep] at h
    · injection h with h2; subst h2; rfl
    · injection h with h2; subst h2; rfl
    · injection h with h2; subst h2; rfl
    · repeat' split at h
      all_goals first
        | exact Except.noConfusion h
        | (injection h with h2; subst h2; rfl)
    · simp only [isRespFor] at hf
      by_cases hty : valueEqInt x1 1 = true
      · rw [hty, Bool.true_and] at hf
        rw [if_pos hty] at h
        split at h
        · split at h
          · rename_i k heq
            injection h with h2
            subst h2
            have hkk0 :=
              List.find?_some
                (show List.find? (fun kv => pyKeyEq x2 kv.1) st.rxQ
                    = some (k, FutState.pending) from heq)
            have hkk : pyKeyEq x2 k = true := hkk0
            have hki : k ≠ i := by
              intro e; subst e; rw [hkk] at hf; exact Bool.noConfusion hf
            show rxqLookup (rxqSet st.rxQ k (settleVal x3 x4)) i = rxqLookup st.rxQ i
            exact rxqLookup_set_other st.rxQ k (settleVal x3 x4) i (Ne.symm hki)
          · exact Except.noConfusion h
          · exact Except.noConfusion h
          · injection h with h2; subst h2; rfl
        · exact Except.noConfusion h
      · rw [if_neg hty] at h
        repeat' split at h
        all_goals first
          | exact Except.noConfusion h
          | (injection h with h2; subst h2; rfl)
    · injection h with h2; subst h2; rfl

theorem rxRun_resps (resps : List (Int × Value × Value)) :
    ∀ st : ClientState,
      (resps.map (·.1)).Nodup →
      (∀ r ∈ resps, rxqLookup st.rxQ r.1 = some FutState.pending) →
      ∃ st', rxRun st (resps.map fun r => respFrame r.1 r.2.1 r.2.2) = .ok st' ∧
        (∀ r ∈ resps, rxqLookup st'.rxQ r.1 = some (settleVal r.2.1 r.2.2)) ∧
        (∀ j, j ∉ resps.map (·.1) → rxqLookup st'.rxQ j = rxqLookup st.rxQ j) := by
  induction resps with
  | nil =>
    intro st _ _
    refine ⟨st, rfl, ?_, ?_⟩
    · intro r hr; cases hr
    · intro j _; rfl
  | cons r rest ih =>
    intro st hnd hp
    obtain ⟨i, err, res⟩ := r
    have h0 : rxqLookup st.rxQ i = some FutState.pending :=
      hp _ (List.mem_cons_self _ _)
    have hstep := rxStep_resp_pending st i err res h0
    have hnd1 : (i :: rest.map (·.1)).Nodup := by
      rw [List.map_cons] at hnd; exact hnd
    have hni : i ∉ rest.map (·.1) := (List.nodup_cons.mp hnd1).1
    have hnd' : (rest.map (·.1)).Nodup := (List.nodup_cons.mp hnd1).2
    have hp' : ∀ r' ∈ rest, rxqLookup (setFut st i (settleVal err res)).rxQ r'.1
        = some FutState.pending := by
      intro r' hr'
      have hne : r'.1 ≠ i := by
        intro e
        exact hni (e ▸ List.mem_map_of_mem (·.1) hr')
      show rxqLookup (rxqSet st.rxQ i (settleVal err res)) r'.1 = some FutState.pending
      rw [rxqLookup_set_other st.rxQ i (settleVal err res) r'.1 hne]
      exact hp _ (List.mem_cons_of_mem _ hr')
    obtain ⟨st', hrun, hset, hother⟩ := ih (setFut st i (settleVal err res)) hnd' hp'
    refine ⟨st', ?_, ?_, ?_⟩
    · rw [List.map_cons]
      show rxRun st (respFrame i err res :: _) = .ok st'
      rw [rxRun, hstep]
      exact hrun
    · intro r' hr'
      rcases List.mem_cons.mp hr' with he | hm
      · rw [he]
        have h1 : rxqLookup st'.rxQ i = rxqLookup (setFut st i (settleVal err res)).rxQ i :=
          hother i hni
        rw [h1]
        show rxqLookup (rxqSet st.rxQ i (settleVal err res)) i = _
        exact rxqLookup_set_self st.rxQ i (settleVal err res) (by rw [h0]; rfl)
      · exact hset _ hm
    · intro j hj
      have hj1 : j ∉ rest.map (·.1) := by
        intro hm
        exact hj (by rw [List.map_cons]; exact List.mem_cons_of_mem _ hm)
      have hji : j ≠ i := by
        intro e
        exact hj (by rw [List.map_cons, e]; exact List.mem_cons_self _ _)
      rw [hother j hj1]
      show rxqLookup (rxqSet st.rxQ i (settleVal err res)) j = _
      exact rxqLookup_set_other st.rxQ i (settleVal err res) j hji

/-! ### Claim theorems -/

/-- Claim C1: `request` allocates ids from the monotonically increasing
`count()` counter and never reuses one (first conjunct: the allocated uid is
the current counter value, the counter increments, and — under the invariant
that all registered keys were allocated earlier — the uid is fresh, its
future registered pending, all other pending entries untouched, with the
invariant preserved); and each caller's awaiter is settled with exactly the
Response frame whose `id` equals the uid allocated for that call, regardless
of arrival order on the wire (second conjunct: for an arbitrary list — hence
any permutation — of response frames with distinct ids all addressed to
pending calls, the receive loop succeeds, settles the future of id `i` with
precisely the `err`/`res` payload of the frame carrying id `i`, and leaves
every id without a frame untouched). -/
theorem request_id_correlation :
    (∀ (st : ClientState) (m : String) (ps : List Value), keyInv st →
      (request st m ps).1 = st.uids ∧
      (request st m ps).2.uids = st.uids + 1 ∧
      rxqLookup st.rxQ (request st m ps).1 = none ∧
      rxqLookup (request st m ps).2.rxQ (request st m ps).1 = some FutState.pending ∧
      (∀ j, j ≠ (request st m ps).1 →
        rxqLookup (request st m ps).2.rxQ j = rxqLookup st.rxQ j) ∧
      keyInv (request st m ps).2) ∧
    (∀ (resps : List (Int × Value × Value)) (st : ClientState),
      (resps.map (·.1)).Nodup →
      (∀ r ∈ resps, rxqLookup st.rxQ r.1 = some FutState.pending) →
      ∃ st', rxRun st (resps.map fun r => respFrame r.1 r.2.1 r.2.2) = .ok st' ∧
        (∀ r ∈ resps, rxqLookup st'.rxQ r.1 = some (settleVal r.2.1 r.2.2)) ∧
        (∀ j, j ∉ resps.map (·.1) → rxqLookup st'.rxQ j = rxqLookup st.rxQ j)) := by
  constructor
  · intro st m ps hinv
    have hany := rxq_any_eq_false_of_lt st.rxQ st.uids hinv
    have hnone := rxqLookup_none_of_lt st.rxQ st.uids hinv
    have hq : (request st m ps).2.rxQ = st.rxQ ++ [(st.uids, FutState.pending)] := by
      show rxqInsert st.rxQ st.uids FutState.pending = _
      rw [rxqInsert, if_neg (by rw [hany]; exact Bool.false_ne_true)]
    refine ⟨rfl, rfl, hnone, ?_, ?_, ?_⟩
    · rw [hq]
      exact rxqLookup_append_self st.rxQ st.uids FutState.pending hnone
    · intro j hj
      rw [hq]
      exact rxqLookup_append_other st.rxQ st.uids FutState.pending j hj
    · intro k hk
      rw [hq, List.map_append, List.mem_append] at hk
      show k < st.uids + 1
      rcases hk with hk | hk
      · exact lt_trans (hinv k hk) (lt_add_one st.uids)
      · have he : k = st.uids := by simpa using hk
        rw [he]
        exact lt_add_one st.uids
  · exact rxRun_resps

/-- Concrete run for C1: two requests allocate ids 0 and 1, the responses
arrive in the opposite order. -/
def c1Requests : ClientState := (request (request initState "m0" []).2 "m1" []).2

/-- Witness for C1 at a concrete input: the first allocated id is 0, and
with responses arriving in reverse order each future receives the payload
addressed to its own id. -/
theorem request_id_correlation_witness :
    (request initState "m0" []).1 = 0 ∧
    (rxRun c1Requests
        [respFrame 1 Value.nil (Value.str "B"), respFrame 0 Value.nil (Value.str "A")]).map
        (fun s => (rxqLookup s.rxQ 0, rxqLookup s.rxQ 1)) =
      Except.ok (some (FutState.result (Value.str "A")), some (FutState.result (Value.str "B"))) := by
  constructor
  · exact (request_id_correlation.1 initState "m0" [] (by intro k hk; cases hk)).1
  · obtain ⟨st', hrun, hset, -⟩ :=
      request_id_correlation.2
        [(1, Value.nil, Value.str "B"), (0, Value.nil, Value.str "A")] c1Requests
        (by decide)
        (by
          intro r hr
          rcases List.mem_cons.mp hr with he | hr2
          · rw [he]; rfl
          · rcases List.mem_cons.mp hr2 with he2 | hr3
            · rw [he2]; rfl
            · cases hr3)
    have hmap : (List.map (fun r => respFrame r.1 r.2.1 r.2.2)
        [((1 : Int), Value.nil, Value.str "B"), ((0 : Int), Value.nil, Value.str "A")])
        = [respFrame 1 Value.nil (Value.str "B"), respFrame 0 Value.nil (Value.str "A")] := rfl
    rw [← hmap, hrun]
    have h0 := hset (0, Value.nil, Value.str "A")
      (List.mem_cons_of_mem _ (List.mem_cons_self _ _))
    have h1 := hset (1, Value.nil, Value.str "B") (List.mem_cons_self _ _)
    rw [show Except.map (fun s => (rxqLookup s.rxQ 0, rxqLookup s.rxQ 1)) (Except.ok st')
        = Except.ok (rxqLookup st'.rxQ 0, rxqLookup st'.rxQ 1) from rfl]
    rw [show rxqLookup st'.rxQ 0 = some (settleVal Value.nil (Value.str "A")) from h0,
        show rxqLookup st'.rxQ 1 = some (settleVal Value.nil (Value.str "B")) from h1]
    rfl

/-- Two requests (`id=5`, `id=6`) outstanding at the moment the peer closes
the stream. -/
def c2State : ClientState :=
  { uids := 7, txQ := [], rxQ := [(5, .pending), (6, .pending)], methods := [], _chan := none }

/-- Counterexample to claim C2: the stream closes (the receive loop sees the
empty read and simply returns) while requests 5 and 6 are outstanding; both
futures are still pending afterwards — they are NOT settled with a
connection-closed error, because the code has no `reject_all` and performs
no settlement at teardown. -/
theorem disconnect_no_reject_cex :
    rxRun c2State [] = .ok c2State ∧
    rxqLookup c2State.rxQ 5 = some FutState.pending ∧
    rxqLookup c2State.rxQ 6 = some FutState.pending :=
  ⟨rfl, rfl, rfl⟩

/-- Claim C2 (amended): when the connection terminates, the receive loop
ends without settling anything — a call that was pending at the start of the
loop and receives no matching response frame before the stream closes is
still pending at disconnect, so its caller stays suspended forever. -/
theorem disconnect_leaves_pending (st st' : ClientState) (frames : List Value) (i : Int)
    (h : rxRun st frames = .ok st')
    (hp : rxqLookup st.rxQ i = some FutState.pending)
    (hno : ∀ f ∈ frames, isRespFor i f = false) :
    rxqLookup st'.rxQ i = some FutState.pending := by
  induction frames generalizing st with
  | nil =>
    rw [rxRun] at h
    injection h with h2
    subst h2
    exact hp
  | cons f rest ih =>
    rcases hs : rxStep st f with e | out
    · rw [rxRun, hs] at h
      exact Except.noConfusion h
    · rw [rxRun, hs] at h
      have hpres := rxStep_rxq_lookup st f out i hs (hno f (List.mem_cons_self _ _))
      exact ih out.state h (by rw [hpres]; exact hp)
        (fun g hg => hno g (List.mem_cons_of_mem _ hg))

/-- Witness for the amended C2 at a concrete input: the stream closes with
id 5 outstanding and no response for it; the call is still pending. -/
theorem disconnect_leaves_pending_witness :
    rxqLookup c2State.rxQ 5 = some FutState.pending :=
  disconnect_leaves_pending c2State c2State [] 5 rfl rfl (by intro f hf; cases hf)

/-- Claim C3: an inbound Response frame whose id matches no entry of the
pending table is consumed without raising: the state is entirely unchanged
(so no other pending call is affected) and the only effect is the
`Unexpected response message` warning. -/
theorem dangling_response_safe (st : ClientState) (mid err res : Value)
    (hh : hashableId mid = true)
    (h : rxqFind st.rxQ mid = none) :
    rxStep st (.arr [.int 1, mid, err, res]) =
      .ok ⟨st, [], [.unexpectedResponse err res]⟩ := by
  simp [rxStep, valueEqInt, hh, h]

/-- One pending request (`id=0`) while a response for unknown `id=99`
arrives. -/
def c3State : ClientState :=
  { uids := 1, txQ := [], rxQ := [(0, .pending)], methods := [], _chan := none }

/-- Witness for C3 at a concrete input: a response for `id=99` is discarded
with a warning and the state (including the pending call 0) is untouched. -/
theorem dangling_response_safe_witness :
    rxStep c3State (.arr [.int 1, .int 99, .str "boom", .nil]) =
      .ok ⟨c3State, [], [.unexpectedResponse (.str "boom") .nil]⟩ :=
  dangling_response_safe c3State (.int 99) (.str "boom") .nil rfl rfl

/-- Claim C4: an inbound Request frame whose method has a registered handler
spawns the handler task (first conjunct), and that task — the `wrapped`
closure — always terminates normally, enqueueing `(1, id, null, v)` when the
handler returns `v` and `(1, id, <string description>, null)` when it raises
(second conjunct; `wrapped` is a total function into `ClientState`, so a
handler exception never escapes the dispatch path). -/
theorem handler_response_conversion :
    (∀ (st : ClientState) (mid : Value) (m : String) (args : Value) (f : RPCallable),
      methodsGet st.methods m = some f →
      rxStep st (.arr [.int 0, mid, .str m, args]) = .ok ⟨st, [⟨f, some mid, args⟩], []⟩) ∧
    (∀ (st : ClientState) (f : RPCallable) (mid : Value) (l : List Value),
      wrapped st f (some mid) (.arr l) =
        { st with txQ := st.txQ ++
            [match f.run l with
             | .ok v => Value.arr [.int 1, mid, .nil, v]
             | .error e => Value.arr [.int 1, mid, .str e, .nil]] }) := by
  constructor
  · intro st mid m args f hf
    simp [rxStep, valueEqInt, methodsGetV, hf]
  · intro st f mid l
    simp only [wrapped]
    rw [show starUnpack (Value.arr l) >>= f.run = f.run l from rfl]
    rcases hr : f.run l with e | v <;> rfl

/-- A handler that succeeds and one that raises, both registered. -/
def pingOk : RPCallable := ⟨"ping", fun _ => .ok (.str "pong")⟩

/-- A handler whose body raises; the stored description models
`str((e, format_exc()))`. -/
def pingBad : RPCallable := ⟨"boom", fun _ => .error "ZeroDivisionError"⟩

/-- Client state with the two handlers of the C4 scenario registered. -/
def c4State : ClientState :=
  { uids := 0, txQ := [], rxQ := [],
    methods := [("ping", pingOk), ("boom", pingBad)], _chan := none }

/-- Witness for C4 at concrete inputs: the inbound request spawns the
registered handler, a succeeding handler enqueues `(1, id, null, result)`,
and a raising handler enqueues `(1, id, description, null)`. -/
theorem handler_response_conversion_witness :
    rxStep c4State (.arr [.int 0, .int 3, .str "ping", .arr []]) =
      .ok ⟨c4State, [⟨pingOk, some (.int 3), .arr []⟩], []⟩ ∧
    wrapped c4State pingOk (some (.int 3)) (.arr [.int 1, .int 2]) =
      { c4State with txQ := [.arr [.int 1, .int 3, .nil, .str "pong"]] } ∧
    wrapped c4State pingBad (some (.int 3)) (.arr [.int 1, .int 2]) =
      { c4State with txQ := [.arr [.int 1, .int 3, .str "ZeroDivisionError", .nil]] } := by
  refine ⟨handler_response_conversion.1 c4State (.int 3) "ping" (.arr []) pingOk rfl, ?_, ?_⟩
  · rw [handler_response_conversion.2 c4State pingOk (.int 3) [.int 1, .int 2]]
    rfl
  · rw [handler_response_conversion.2 c4State pingBad (.int 3) [.int 1, .int 2]]
    rfl

/-- Claim C5: registering a handler for an already-registered method name
fails with the registration-time pre-condition error (the
`assert f.method not in self._methods` raises before any mutation), and the
first registration is left intact in the handler table, hence it is the one
later dispatch looks up. -/
theorem register_duplicate_rejected (st : ClientState) (f g : RPCallable)
    (hm : g.method = f.method) (h0 : methodsGet st.methods f.method = none) :
    ∃ st', register st f = .ok st' ∧
      register st' g = .error PyErr.assertionError ∧
      methodsGet st'.methods f.method = some f := by
  have hins : methodsInsert st.methods f.method f = st.methods ++ [(f.method, f)] := by
    rw [methodsInsert,
      if_neg (by rw [methods_any_eq_false st.methods f.method h0]; exact Bool.false_ne_true)]
  have hget : methodsGet (methodsInsert st.methods f.method f) f.method = some f := by
    rw [hins]
    exact methodsGet_append_self st.methods f.method f h0
  refine ⟨{ st with methods := methodsInsert st.methods f.method f }, ?_, ?_, hget⟩
  · rw [register, if_neg (by rw [h0]; simp)]
  · rw [register]
    have hsome : (methodsGet ({ st with methods := methodsInsert st.methods f.method f}
        : ClientState).methods g.method).isSome = true := by
      rw [hm]
      show (methodsGet (methodsInsert st.methods f.method f) f.method).isSome = true
      rw [hget]
      rfl
    rw [if_pos hsome]

/-- First registration for the method name `ping`. -/
def pingA : RPCallable := ⟨"ping", fun _ => .ok (.str "a")⟩

/-- Conflicting second registration for the same method name. -/
def pingB : RPCallable := ⟨"ping", fun _ => .ok (.str "b")⟩

/-- Witness for C5 at a concrete input: the second registration of `ping`
fails with the assertion and a lookup still returns the first handler. -/
theorem register_duplicate_rejected_witness :
    (register initState pingA).map
        (fun s => (register s pingB, methodsGet s.methods pingA.method))
      = Except.ok (Except.error PyErr.assertionError, some pingA) := by
  obtain ⟨st', h1, h2, h3⟩ := register_duplicate_rejected initState pingA pingB rfl rfl
  rw [h1,
    show Except.map (fun s => (register s pingB, methodsGet s.methods pingA.method))
        (Except.ok st')
      = Except.ok (register st' pingB, methodsGet st'.methods pingA.method) from rfl,
    h2, h3]

/-- Claim C6: decoding an extension value whose type code has a registered
constructor yields an instance of that registered class wrapping the payload
bytes; a code with no registered constructor raises
`RuntimeError((code, data))`. -/
theorem ext_decode_registered_or_fatal (m : Hooker) (code : Int) (data : List Nat)
    (cls : ExtCls) :
    (hookerGet m code = some cls → ext_hook m code data = .ok ⟨cls, data⟩) ∧
    (hookerGet m code = none → ext_hook m code data = .error (.runtimeError code data)) := by
  constructor
  · intro h
    simp only [ext_hook, h]
  · intro h
    simp only [ext_hook, h]

/-- The hooker table after the scenario handshake: `Buffer` code 0, `Window`
code 1, `Tabpage` code 2. -/
def c6Hooker : Hooker := hookerInit [⟨"Buffer", 0⟩, ⟨"Window", 1⟩, ⟨"Tabpage", 2⟩]

/-- Witness for C6 at concrete inputs: code 0 with payload `b"\x01"` decodes
to a Buffer-kind value wrapping the payload; unregistered code 99 is fatal. -/
theorem ext_decode_registered_or_fatal_witness :
    ext_hook c6Hooker 0 [1] = .ok ⟨⟨"Buffer", 0⟩, [1]⟩ ∧
    ext_hook c6Hooker 99 [1] = .error (.runtimeError 99 [1]) :=
  ⟨(ext_decode_registered_or_fatal c6Hooker 0 [1] ⟨"Buffer", 0⟩).1 rfl,
   (ext_decode_registered_or_fatal c6Hooker 99 [1] ⟨"Buffer", 0⟩).2 rfl⟩

/-- Claim C7: the packer default hook encodes any `Ext` instance to its
`(code, payload)` wire form and raises `TypeError` on every other custom
object (the error msgpack surfaces for an unencodable outbound value). -/
theorem pack_ext_or_type_error (e : ExtValue) (d : String) :
    _pack (.extv e) = .ok (e.cls.code, e.data) ∧ _pack (.other d) = .error .typeError :=
  ⟨rfl, rfl⟩

/-- Claim C10: settling a pending call does not remove its entry from
`rx_q`: after a response for id `i` settles the future, the table still maps
`i` to the settled future, and a second response carrying the same id finds
that future and attempts to settle it again (raising `InvalidStateError`)
instead of taking the discarded-as-unmatched warning path. -/
theorem settled_entry_not_removed (st : ClientState) (i : Int) (err res err2 res2 : Value)
    (h : rxqLookup st.rxQ i = some FutState.pending) :
    rxStep st (respFrame i err res) = .ok ⟨setFut st i (settleVal err res), [], []⟩ ∧
    rxqLookup (setFut st i (settleVal err res)).rxQ i = some (settleVal err res) ∧
    rxStep (setFut st i (settleVal err res)) (respFrame i err2 res2)
      = .error PyErr.invalidStateError := by
  have hlk : rxqLookup (setFut st i (settleVal err res)).rxQ i = some (settleVal err res) := by
    show rxqLookup (rxqSet st.rxQ i (settleVal err res)) i = _
    exact rxqLookup_set_self st.rxQ i (settleVal err res) (by rw [h]; rfl)
  refine ⟨rxStep_resp_pending st i err res h, hlk, ?_⟩
  rw [rxStep_resp_cases]
  rcases hf : rxqFind (setFut st i (settleVal err res)).rxQ (.int i) with _ | ⟨k, fut⟩
  · exfalso
    rw [rxqLookup, hf] at hlk
    exact absurd hlk (by simp)
  · have hfut : fut = settleVal err res := by
      rw [rxqLookup, hf] at hlk
      simpa using hlk
    rw [hfut, settleVal]
    by_cases ht : err.truthy = true
    · rw [if_pos ht]
    · rw [if_neg ht]

/-- One pending request (`id=0`) about to receive two responses with the
same id. -/
def c10State : ClientState :=
  { uids := 1, txQ := [], rxQ := [(0, .pending)], methods := [], _chan := none }

/-- Witness for C10 at a concrete input: after the first response for id 0
is consumed, the table still holds the settled future for id 0 and the
duplicate response hits the settle-again path. -/
theorem settled_entry_not_removed_witness :
    rxStep c10State (respFrame 0 Value.nil (Value.str "x")) =
      .ok ⟨setFut c10State 0 (settleVal Value.nil (Value.str "x")), [], []⟩ ∧
    rxqLookup (setFut c10State 0 (settleVal Value.nil (Value.str "x"))).rxQ 0
      = some (settleVal Value.nil (Value.str "x")) ∧
    rxStep (setFut c10State 0 (settleVal Value.nil (Value.str "x")))
        (respFrame 0 Value.nil (Value.str "y")) = .error PyErr.invalidStateError :=
  settled_entry_not_removed c10State 0 Value.nil (Value.str "x") Value.nil (Value.str "y") rfl

/-- Claim C8: during handshake the client enqueues exactly one
`nvim_set_client_info` notification with params
`(name, {"major", "minor", "patch"}, "remote", (), {})` followed by exactly
one `nvim_get_api_info` request with no params (first conjunct, an exact
equation on the outbound queue); and a response result whose metadata map is
missing `types` or `error_types` or holds them with the wrong shape fails
the handshake assertions (second and third conjuncts), so `client` raises
before yielding and never becomes ready. -/
theorem handshake_protocol :
    (∀ (st : ClientState) (ci : ClientInfo),
      (handshakeSend st ci).2.txQ = st.txQ ++
        [.arr [.int 2, .str "nvim_set_client_info", .arr (clientInfoParams ci)],
         .arr [.int 0, .int st.uids, .str "nvim_get_api_info", .arr []]] ∧
      (handshakeSend st ci).1 = st.uids) ∧
    (∀ (st : ClientState) (chanV : Value) (kvs : List (Value × Value)),
      badMeta kvs = true →
      handshakeComplete st (.arr [chanV, .map kvs]) = .error .assertionError) ∧
    (∀ (st : ClientState) (chanV metaV : Value),
      metaV.isMapB = false →
      handshakeComplete st (.arr [chanV, metaV]) = .error .assertionError) := by
  refine ⟨?_, ?_, ?_⟩
  · intro st ci
    constructor
    · show (request (notify st "nvim_set_client_info" (clientInfoParams ci))
          "nvim_get_api_info" []).2.txQ = _
      simp [request, notify, List.append_assoc]
    · rfl
  · intro st chanV kvs hbad
    rcases h1 : mapGet kvs "types" with _ | v1
    · simp [handshakeComplete, unpack2, h1]
    · rcases v1 with _ | b1 | n1 | s1 | l1 | m1 | ⟨c1, d1⟩
      case map =>
        have herr : (match mapGet kvs "error_types" with
            | some (.map _) => true | _ => false) = false := by
          rw [badMeta, h1, Bool.or_eq_true] at hbad
          rcases hbad with hb | hb
          · simp at hb
          · simpa using hb
        rcases h2 : mapGet kvs "error_types" with _ | v2
        · simp [handshakeComplete, unpack2, h1, h2]
        · rcases v2 with _ | b2 | n2 | s2 | l2 | m2 | ⟨c2, d2⟩
          case map => rw [h2] at herr; exact absurd herr (by simp)
          all_goals simp [handshakeComplete, unpack2, h1, h2]
      all_goals simp [handshakeComplete, unpack2, h1]
  · intro st chanV metaV hm
    rcases metaV with _ | b | n | s | l | mm | ⟨c, d⟩
    case map => exact absurd hm (by simp [Value.isMapB])
    all_goals simp [handshakeComplete, unpack2]

/-- A handshake metadata map that carries `types` but is missing
`error_types`. -/
def c8BadMeta : List (Value × Value) := [(.str "types", .map [])]

/-- Witness for C8 at concrete inputs: from the fresh client the handshake
enqueues exactly the two frames in order, and a metadata map missing
`error_types` fails the assertion. -/
theorem handshake_protocol_witness :
    (handshakeSend initState ⟨"py", 3, 11, 2⟩).2.txQ =
      [.arr [.int 2, .str "nvim_set_client_info", .arr (clientInfoParams ⟨"py", 3, 11, 2⟩)],
       .arr [.int 0, .int 0, .str "nvim_get_api_info", .arr []]] ∧
    handshakeComplete initState (.arr [.int 3, .map c8BadMeta]) = .error .assertionError := by
  constructor
  · rw [(handshake_protocol.1 initState ⟨"py", 3, 11, 2⟩).1]
    rfl
  · exact handshake_protocol.2.1 initState (.int 3) c8BadMeta rfl

/-- Well-formed handshake metadata carrying the three type codes. -/
def c9GoodMeta : Value :=
  .map [(.str "types",
          .map [(.str "Buffer", .map [(.str "id", .int 0)]),
                (.str "Window", .map [(.str "id", .int 1)]),
                (.str "Tabpage", .map [(.str "id", .int 2)])]),
        (.str "error_types", .map [])]

/-- Counterexample to claim C9: the handshake can complete with channel id
`0` (the code stores whatever arrived, with no validation), after which the
`chan` property does NOT return the stored value — the truthiness assertion
`assert self._chan` fails for a stored `0` exactly as for an unset channel. -/
theorem chan_zero_read_fails_cex :
    (handshakeComplete initState (.arr [.int 0, c9GoodMeta])).map
        (fun p => (p.1._chan, chan p.1))
      = Except.ok (some (.int 0), .error PyErr.assertionError) := rfl

/-- Claim C9 (amended): reading `chan` before the channel is set fails the
assertion; a read after it is set returns the stored value provided that
value is truthy, while a stored falsy value (such as `0`) fails the same
assertion as unset (the property asserts truthiness, not presence); and the
channel is immutable under every client operation — `request`, `notify`,
`register`, the receive loop step, and handler dispatch all leave `_chan`
unchanged, the handshake completion being its only writer. -/
theorem chan_access_spec :
    (∀ st : ClientState, st._chan = none → chan st = .error PyErr.assertionError) ∧
    (∀ (st : ClientState) (v : Value), st._chan = some v → v.truthy = true →
      chan st = .ok v) ∧
    (∀ (st : ClientState) (v : Value), st._chan = some v → v.truthy = false →
      chan st = .error PyErr.assertionError) ∧
    (∀ (st : ClientState) (m : String) (ps : List Value),
      (request st m ps).2._chan = st._chan ∧ (notify st m ps)._chan = st._chan) ∧
    (∀ (st st' : ClientState) (f : RPCallable), register st f = .ok st' →
      st'._chan = st._chan) ∧
    (∀ (st : ClientState) (fr : Value) (out : RxOut), rxStep st fr = .ok out →
      out.state._chan = st._chan) ∧
    (∀ (st : ClientState) (f : RPCallable) (mid : Option Value) (ps : Value),
      (wrapped st f mid ps)._chan = st._chan) := by
  refine ⟨?_, ?_, ?_, ?_, ?_, ?_, ?_⟩
  · intro st h
    simp [chan, h]
  · intro st v h ht
    simp [chan, h, ht]
  · intro st v h ht
    simp [chan, h, ht]
  · intro st m ps
    exact ⟨rfl, rfl⟩
  · intro st st' f h
    rw [register] at h
    split at h
    · exact Except.noConfusion h
    · injection h with h2
      rw [← h2]
  · intro st fr out h
    exact (rxStep_fields st fr out h).2.2.2
  · intro st f mid ps
    rcases mid with _ | mid
    · rfl
    · simp only [wrapped]
      rcases hr : starUnpack ps >>= f.run with e | v <;> rfl

/-- A client state whose channel was set to the truthy id 7 at handshake. -/
def c9SetState : ClientState :=
  { uids := 1, txQ := [], rxQ := [], methods := [], _chan := some (.int 7) }

/-- Witness for the amended C9 at concrete inputs: the unset channel fails
the assertion, the channel set to 7 reads back as 7, and an operation such
as `notify` leaves the channel untouched. -/
theorem chan_access_spec_witness :
    chan initState = .error PyErr.assertionError ∧
    chan c9SetState = .ok (.int 7) ∧
    (notify c9SetState "m" [])._chan = some (.int 7) := by
  refine ⟨chan_access_spec.1 initState rfl,
    chan_access_spec.2.1 c9SetState (.int 7) rfl rfl, ?_⟩
  rw [(chan_access_spec.2.2.2.1 c9SetState "m" []).2]
  rfl
